import Mathlib

/-!
Verification of the TeddyPlayer server against its specification.

The definitions below are shallow embeddings of the Python source under
src/server/app/.  Strings are modelled as lists of characters where character
level processing matters, machine floats as rationals, and the file system and
network as explicit oracles or command lists.  Each claim is settled by a
theorem about these definitions.
-/

namespace TeddyPlayer

/-! ## Generic string helpers -/

/-- Last n elements of a list (python s[-n:] for nonempty s, and the whole
list when it is shorter than n). -/
def lastN (n : Nat) (l : List Char) : List Char :=
  l.drop (l.length - n)

theorem lastN_suffix (n : Nat) (l : List Char) : lastN n l <:+ l :=
  l.drop_suffix _

theorem lastN_of_length_le (n : Nat) (l : List Char) (h : l.length ≤ n) :
    lastN n l = l := by
  unfold lastN
  have : l.length - n = 0 := Nat.sub_eq_zero_of_le h
  simp [this]

theorem lastN_length (n : Nat) (l : List Char) (h : n ≤ l.length) :
    (lastN n l).length = n := by
  unfold lastN
  simp [List.length_drop]
  omega

/-! ## C6: tag lookup by UID (services/teddycloud.py, find_tonie_by_uid)

The source normalizes both UIDs by stripping colons and uppercasing, then
matches a record against the query by equality or by the record UID ending
with the query UID. -/

/-- Embedding of the Python normalization uid.replace(colon, empty).upper(). -/
def normalizeUid (s : List Char) : List Char :=
  (s.filter (fun c => c ≠ ':')).map Char.toUpper

/-- Embedding of the match test applied to each tag record in
find_tonie_by_uid: tag_uid == normalized_uid or tag_uid.endswith(normalized_uid),
where tag_uid is the normalized record UID and normalized_uid the normalized
query. -/
def uidMatches (tagUid queryUid : List Char) : Bool :=
  let t := normalizeUid tagUid
  let q := normalizeUid queryUid
  t = q || q.isSuffixOf t

/-- Claim C6 as written compares only the last 8 normalized characters of
the two UIDs. -/
def last8Eq (tagUid queryUid : List Char) : Bool :=
  lastN 8 (normalizeUid tagUid) = lastN 8 (normalizeUid queryUid)

end TeddyPlayer

/-- C6 counterexample: when the reader transmits a full 16 hex character UID
but the record stores only the 8 character suffix, the last 8 characters of
the two UIDs agree, yet find_tonie_by_uid does not match the record (a
shorter string never ends with a longer one).  The claim fails as stated. -/
theorem C6_counterexample :
    TeddyPlayer.last8Eq
        ("11223344".toList) ("AA:BB:CC:DD:11:22:33:44".toList) = true ∧
    TeddyPlayer.uidMatches
        ("11223344".toList) ("AA:BB:CC:DD:11:22:33:44".toList) = false := by
  constructor <;> decide

/-- C6 amended: the match is equality or full-suffix match of the normalized
(colon-stripped, uppercased) query against the normalized record UID.  When
the reader transmits exactly 8 hex characters (the 4-byte suffix, the case
described by the spec), this coincides with comparing the last 8 normalized
characters of the two UIDs. -/
theorem C6_suffix_match (tagUid queryUid : List Char)
    (h : (TeddyPlayer.normalizeUid queryUid).length = 8) :
    TeddyPlayer.uidMatches tagUid queryUid = true ↔
      TeddyPlayer.last8Eq tagUid queryUid = true := by
  unfold TeddyPlayer.uidMatches TeddyPlayer.last8Eq
  generalize TeddyPlayer.normalizeUid tagUid = t
  generalize hq : TeddyPlayer.normalizeUid queryUid = q
  rw [hq] at h
  simp only [Bool.or_eq_true, decide_eq_true_eq, List.isSuffixOf_iff_suffix]
  constructor
  · rintro (heq | hsuf)
    · rw [heq]
    · -- q is a suffix of t of length 8, so it is the last 8 characters of t
      obtain ⟨pre, hpre⟩ := hsuf
      rw [TeddyPlayer.lastN_of_length_le 8 q (le_of_eq h), ← hpre]
      unfold TeddyPlayer.lastN
      have hlen : (pre ++ q).length - 8 = pre.length := by
        simp [List.length_append, h]
      rw [hlen, List.drop_append_of_le_length (le_refl pre.length)]
      simp
  · intro hlast
    right
    rw [TeddyPlayer.lastN_of_length_le 8 q (le_of_eq h)] at hlast
    rw [← hlast]
    exact TeddyPlayer.lastN_suffix 8 t

/-- C6 witness: the amended theorem applied to the 8 character query from an
18 character record. -/
theorem C6_suffix_match_witness :
    (TeddyPlayer.normalizeUid ("13:16:80:4B".toList)).length = 8 ∧
    (TeddyPlayer.uidMatches ("E0:04:03:50:13:16:80:4B".toList)
        ("13:16:80:4B".toList) = true ↔
      TeddyPlayer.last8Eq ("E0:04:03:50:13:16:80:4B".toList)
        ("13:16:80:4B".toList) = true) :=
  ⟨by decide,
   C6_suffix_match ("E0:04:03:50:13:16:80:4B".toList) ("13:16:80:4B".toList)
     (by decide)⟩

namespace TeddyPlayer

/-! ## Reader state machine (main.py)

Shallow embedding of the per-reader playback state and of the operations
stop_reader_playback, the tag-removal branch of handle_tonie, and the state
relevant control flow of play_tonie_for_reader.  Network and clock effects
are supplied through an environment record; device calls are recorded as an
explicit command list. -/

/-- Input track dict entries: name, start, duration (floats as rationals). -/
structure TrackIn where
  name : String
  start : ℚ
  duration : ℚ
deriving DecidableEq

/-- A playback device descriptor: the type and id fields used by the state
machine. -/
structure Device where
  type : String
  id : String
deriving DecidableEq

/-- Device adapter calls issued by a state machine operation. -/
inductive DevCmd where
  | pause (d : Device)
  | stop (d : Device)
  | resumeDev (d : Device)
  | play (d : Device)
deriving DecidableEq

/-- The resume record stored on tag removal or manual stop. -/
structure ResumeInfo where
  uid : String
  position : ℚ
  device : Device
  paused : Bool
deriving DecidableEq

/-- The current_tag snapshot stored under a reader state (the fields used by
the state machine and the claims). -/
structure TagSnapshot where
  uid : String
  series : Option String
  episode : Option String
  title : Option String
  picture : Option String
  audioUrl : String
  playbackUrl : Option String
  startPosition : ℚ
  duration : ℚ
  tracks : List TrackIn
deriving DecidableEq

/-- Per-reader playback state, as initialized by get_reader_state.  The
mode and target_device keys are absent from the initial dict and are
written by handle_tonie before a scan and read by the control endpoint;
an absent key reads as none. -/
structure ReaderState where
  currentTag : Option TagSnapshot
  currentStartedAt : Option ℚ
  currentOffset : ℚ
  resume : Option ResumeInfo
  lastReportedPosition : ℚ
  currentDevice : Option Device
  mode : Option String
  targetDevice : Option Device
deriving DecidableEq

/-- The initial dict created by get_reader_state. -/
def initReaderState : ReaderState :=
  { currentTag := none
    currentStartedAt := none
    currentOffset := 0
    resume := none
    lastReportedPosition := 0
    currentDevice := none
    mode := none
    targetDevice := none }

/-- Response model of POST /tonie (the fields set by the modelled paths). -/
structure TonieResponse where
  uid : String
  series : Option String
  episode : Option String
  title : Option String
  picture : Option String
  found : Bool
  playbackStarted : Bool
  playbackUrl : Option String
deriving DecidableEq

/-- Result of find_tonie_by_uid as consumed by play_tonie_for_reader. -/
structure TonieData where
  series : Option String
  episode : Option String
  title : Option String
  picture : Option String
  duration : ℚ
  tracks : List TrackIn
deriving DecidableEq

/-- Environment of one scan or removal request: results of the external
calls (content lookup, device resolution, device position, clock, URL
construction, and the asynchronous playback outcome). -/
structure ScanEnv where
  lookup : Option TonieData
  readerDevice : Device
  readerDefaultDevice : Device
  resumeOk : Bool
  stopPosition : ℚ
  now : ℚ
  audioUrl : String
  playbackUrl : String
  playbackStartedResult : Bool
deriving DecidableEq

/-- Embedding of stop_reader_playback (main.py 511-554).  The position that
get_resume_position would compute is supplied as stopPosition; the device
fallback get_device_for_reader as readerDefaultDevice. -/
def stopReaderPlayback (env : ScanEnv) (saveResume pauseOnly : Bool)
    (s : ReaderState) : ReaderState × List DevCmd :=
  match s.currentTag with
  | none => (s, [])
  | some cur =>
    let device := s.currentDevice.getD env.readerDefaultDevice
    let s1 :=
      if saveResume then
        { s with resume := some ⟨cur.uid, env.stopPosition, device, pauseOnly⟩ }
      else s
    if pauseOnly then
      (s1, [DevCmd.pause device])
    else
      ({ s1 with
          currentTag := none
          currentStartedAt := none
          currentOffset := 0
          lastReportedPosition := 0
          currentDevice := none },
        [DevCmd.stop device])

/-- Tag-removal branch of handle_tonie (main.py 2123-2127): uid null pauses
with save_resume and answers found false. -/
def handleTagRemoval (env : ScanEnv) (s : ReaderState) :
    TonieResponse × ReaderState × List DevCmd :=
  let (s1, cmds) := stopReaderPlayback env true true s
  (⟨"", none, none, none, none, false, false, none⟩, s1, cmds)

/-- Guard of the resume-on-same-tag branch (main.py 603). -/
def sameTagResumable (s : ReaderState) (uid : String) : Bool :=
  match s.resume with
  | some r => r.uid = uid && r.paused
  | none => false

/-- Pseudo-track synthesis for a tag without per-track data
(main.py 729-739): the actual duration when positive, else 7200 seconds. -/
def pseudoTracksFor (tonieTracks : List TrackIn) (duration : ℚ) :
    List TrackIn :=
  if tonieTracks.isEmpty then
    let fullDuration := if duration > 0 then duration else 7200
    [⟨"Full Audio", 0, fullDuration⟩]
  else tonieTracks

/-- Fresh-scan tail of play_tonie_for_reader (main.py 639-1851): content
lookup, response skeleton, resume consumption, and the new current_tag
snapshot — from the tonie when the lookup succeeds (701-749), or the
library/unknown-tag snapshot of the else branch (1661-1702) when it fails,
which also stores the uid with a pseudo-track and reports playback started
for browser and the progressive network kinds (1711-1848) but not for
others.  The request carries no metadata_override here, so the override
fallbacks of the else branch read as absent.  The asynchronous playback
blocks are abstracted into a single play command (and, on the found path,
the playbackStartedResult flag). -/
def scanFresh (env : ScanEnv) (uid : String) (s : ReaderState)
    (cmds : List DevCmd) : TonieResponse × ReaderState × List DevCmd :=
  let tonie := env.lookup
  let resp0 : TonieResponse :=
    { uid := uid
      series := tonie.bind (·.series)
      episode := tonie.bind (·.episode)
      title := tonie.bind (·.title)
      picture := tonie.bind (·.picture)
      found := tonie.isSome
      playbackStarted := false
      playbackUrl := some env.playbackUrl }
  let startPos : ℚ :=
    match s.resume with
    | some r => if r.uid = uid then r.position else 0
    | none => 0
  let s1 :=
    match s.resume with
    | some r => if r.uid = uid then { s with resume := none } else s
    | none => s
  match tonie with
  | none =>
    let finalSeries := resp0.series
    let finalTitle := ((resp0.title).or finalSeries).getD "Unknown Tag"
    let coverUrl := (resp0.picture).getD ""
    let libTracks : List TrackIn := [⟨"Full Audio", 0, 7200⟩]
    let snapshot : TagSnapshot :=
      { uid := uid
        series := finalSeries
        episode := resp0.episode
        title := some finalTitle
        picture := some coverUrl
        audioUrl := env.audioUrl
        playbackUrl := some env.playbackUrl
        startPosition := startPos
        duration := 0
        tracks := libTracks }
    let s2 :=
      { s1 with
          currentTag := some snapshot
          currentStartedAt := some env.now
          currentOffset := startPos
          currentDevice := some env.readerDevice
          lastReportedPosition :=
            if env.readerDevice.type = "browser" then startPos else 0 }
    let started :=
      env.readerDevice.type = "browser" ||
        (env.readerDevice.type = "sonos" ||
          (env.readerDevice.type = "airplay" ||
            env.readerDevice.type = "chromecast"))
    ({ resp0 with playbackStarted := started }, s2,
      cmds ++ [DevCmd.play env.readerDevice])
  | some t =>
    let tonieTracks := pseudoTracksFor t.tracks t.duration
    let snapshot : TagSnapshot :=
      { uid := uid
        series := resp0.series
        episode := resp0.episode
        title := resp0.title
        picture := t.picture
        audioUrl := env.audioUrl
        playbackUrl := some env.playbackUrl
        startPosition := startPos
        duration := t.duration
        tracks := tonieTracks }
    let s2 :=
      { s1 with
          currentTag := some snapshot
          currentStartedAt := some env.now
          currentOffset := startPos
          currentDevice := some env.readerDevice
          lastReportedPosition :=
            if env.readerDevice.type = "browser" then startPos else 0 }
    ({ resp0 with playbackStarted := env.playbackStartedResult }, s2,
      cmds ++ [DevCmd.play env.readerDevice])

/-- Embedding of play_tonie_for_reader (main.py 597-749).  The early
branches on a re-scan of the current tag (599-634), the stop on a different
tag (636-637), and the fresh-scan tail. -/
def playTonieForReader (env : ScanEnv) (uid : String) (s : ReaderState) :
    TonieResponse × ReaderState × List DevCmd :=
  match s.currentTag with
  | some cur =>
    if cur.uid = uid then
      if sameTagResumable s uid then
        let device := s.currentDevice.getD env.readerDefaultDevice
        let s1 := if env.resumeOk then { s with resume := none } else s
        (⟨uid, cur.series, cur.episode, cur.title, cur.picture, true,
            env.resumeOk, cur.playbackUrl⟩, s1, [DevCmd.resumeDev device])
      else
        (⟨uid, cur.series, cur.episode, cur.title, cur.picture, true,
            false, cur.playbackUrl⟩, s, [])
    else
      let (s1, cmds1) := stopReaderPlayback env false false s
      scanFresh env uid s1 cmds1
  | none => scanFresh env uid s []

/-- Scan branch of handle_tonie (main.py 2174-2187): before delegating to
play_tonie_for_reader it stores the stream mode info in the reader state;
the device override resolution of 2139-2162 is reflected in the
environment's readerDevice. -/
def handleTonieScan (env : ScanEnv) (mode : String)
    (targetDev : Option Device) (uid : String) (s : ReaderState) :
    TonieResponse × ReaderState × List DevCmd :=
  let s1 := { s with
      mode := some mode
      targetDevice := if mode = "stream" then targetDev else none }
  playTonieForReader env uid s1

/-- Stop action of handle_control_command (main.py 3938-3985): with no
current tag it answers an error and mutates nothing; otherwise it stops the
control target (target_device, else current_device, else the reader's
configured device), clears current_tag, resets mode to local and
target_device to none — and leaves resume untouched. -/
def handleControlStop (env : ScanEnv) (s : ReaderState) :
    Bool × ReaderState × List DevCmd :=
  match s.currentTag with
  | none => (false, s, [])
  | some _ =>
    let device :=
      (s.targetDevice.or s.currentDevice).getD env.readerDefaultDevice
    if device.type = "" then (false, s, [])
    else
      (true,
        { s with
            currentTag := none
            mode := some "local"
            targetDevice := none },
        [DevCmd.stop device])

/-! Concrete fixtures for the counterexample traces. -/

/-- A concrete device used in counterexample traces. -/
def exDevice : Device := ⟨"espuino", "192.0.2.10"⟩

/-- A concrete resolvable tonie with track data. -/
def exTonie : TonieData :=
  { series := some "Series"
    episode := some "Episode"
    title := some "Title"
    picture := some "pic.png"
    duration := 100
    tracks := [⟨"Track 1", 0, 50⟩, ⟨"Track 2", 50, 50⟩] }

/-- Scan environment where the content lookup succeeds. -/
def exEnvFound : ScanEnv :=
  { lookup := some exTonie
    readerDevice := exDevice
    readerDefaultDevice := exDevice
    resumeOk := true
    stopPosition := 42
    now := 1000
    audioUrl := "http://docker/content/E004035013  "
    playbackUrl := "http://server/transcode.mp3"
    playbackStartedResult := true }

/-- Scan environment where the content lookup fails (unknown tag). -/
def exEnvMissing : ScanEnv :=
  { exEnvFound with lookup := none }

end TeddyPlayer

namespace TeddyPlayer

/-- A concrete snapshot of a playing tag, used by witnesses. -/
def exSnapshot : TagSnapshot :=
  { uid := "T"
    series := some "Series"
    episode := some "Episode"
    title := some "Title"
    picture := some "pic.png"
    audioUrl := "http://docker/content/E004035013"
    playbackUrl := some "http://server/transcode.mp3"
    startPosition := 0
    duration := 100
    tracks := [⟨"Track 1", 0, 50⟩, ⟨"Track 2", 50, 50⟩] }

/-- A concrete reader state that is currently playing exSnapshot. -/
def exPlayingState : ReaderState :=
  { initReaderState with
      currentTag := some exSnapshot
      currentStartedAt := some 500
      currentDevice := some exDevice }

end TeddyPlayer

/-- C10: a tag-removal request on a reader without a current tag is a
complete no-op on the playback state: the response reports found false, no
resume is recorded, no device command is issued, and the state is returned
unchanged. -/
theorem C10_removal_noop (env : TeddyPlayer.ScanEnv) (s : TeddyPlayer.ReaderState)
    (h : s.currentTag = none) :
    TeddyPlayer.handleTagRemoval env s =
      (⟨"", none, none, none, none, false, false, none⟩, s, []) := by
  simp [TeddyPlayer.handleTagRemoval, TeddyPlayer.stopReaderPlayback, h]

/-- C10 witness: the no-op at the freshly initialized reader state. -/
theorem C10_removal_noop_witness :
    TeddyPlayer.handleTagRemoval TeddyPlayer.exEnvFound TeddyPlayer.initReaderState =
      (⟨"", none, none, none, none, false, false, none⟩,
        TeddyPlayer.initReaderState, []) :=
  C10_removal_noop TeddyPlayer.exEnvFound TeddyPlayer.initReaderState rfl

/-- C3 counterexample: the global invariant "resume.paused = true implies
current_tag is set" fails on a reachable trace.  Scan tag T (resolved),
remove the tag (pause; resume recorded with paused true; current_tag kept),
then issue the remote-control stop (POST /control action stop): it clears
current_tag, mode and target_device but leaves the stale paused resume
record in place, so the final state has resume.paused true and
current_tag none. -/
theorem C3_counterexample :
    ((TeddyPlayer.handleControlStop TeddyPlayer.exEnvFound
        (TeddyPlayer.handleTagRemoval TeddyPlayer.exEnvFound
          (TeddyPlayer.handleTonieScan TeddyPlayer.exEnvFound "local" none "T"
            TeddyPlayer.initReaderState).2.1).2.1).2.1.resume.map
      TeddyPlayer.ResumeInfo.paused = some true) ∧
    (TeddyPlayer.handleControlStop TeddyPlayer.exEnvFound
        (TeddyPlayer.handleTagRemoval TeddyPlayer.exEnvFound
          (TeddyPlayer.handleTonieScan TeddyPlayer.exEnvFound "local" none "T"
            TeddyPlayer.initReaderState).2.1).2.1).2.1.currentTag = none := by
  constructor <;> decide

/-- C3 amended: the tag-removal transition itself behaves as claimed.  On a
reader with a current tag, removal issues exactly one device pause, keeps
current_tag set, and records resume with the current uid, the computed
position, the current device, and paused true.  The global implication from
resume.paused to current_tag does not hold on all reachable states (see the
counterexample). -/
theorem C3_removal_pauses (env : TeddyPlayer.ScanEnv)
    (s : TeddyPlayer.ReaderState) (cur : TeddyPlayer.TagSnapshot)
    (h : s.currentTag = some cur) :
    (TeddyPlayer.handleTagRemoval env s).2.1.currentTag = some cur ∧
    (TeddyPlayer.handleTagRemoval env s).2.1.resume =
      some ⟨cur.uid, env.stopPosition,
        s.currentDevice.getD env.readerDefaultDevice, true⟩ ∧
    (TeddyPlayer.handleTagRemoval env s).1.found = false ∧
    (TeddyPlayer.handleTagRemoval env s).2.2 =
      [TeddyPlayer.DevCmd.pause (s.currentDevice.getD env.readerDefaultDevice)] := by
  simp [TeddyPlayer.handleTagRemoval, TeddyPlayer.stopReaderPlayback, h]

/-- C3 witness: the removal transition at the concrete playing state. -/
theorem C3_removal_pauses_witness :
    (TeddyPlayer.handleTagRemoval TeddyPlayer.exEnvFound
        TeddyPlayer.exPlayingState).2.1.currentTag = some TeddyPlayer.exSnapshot ∧
    (TeddyPlayer.handleTagRemoval TeddyPlayer.exEnvFound
        TeddyPlayer.exPlayingState).2.1.resume =
      some ⟨TeddyPlayer.exSnapshot.uid, TeddyPlayer.exEnvFound.stopPosition,
        TeddyPlayer.exPlayingState.currentDevice.getD
          TeddyPlayer.exEnvFound.readerDefaultDevice, true⟩ ∧
    (TeddyPlayer.handleTagRemoval TeddyPlayer.exEnvFound
        TeddyPlayer.exPlayingState).1.found = false ∧
    (TeddyPlayer.handleTagRemoval TeddyPlayer.exEnvFound
        TeddyPlayer.exPlayingState).2.2 =
      [TeddyPlayer.DevCmd.pause
        (TeddyPlayer.exPlayingState.currentDevice.getD
          TeddyPlayer.exEnvFound.readerDefaultDevice)] :=
  C3_removal_pauses TeddyPlayer.exEnvFound TeddyPlayer.exPlayingState
    TeddyPlayer.exSnapshot rfl

/-- C4: a second scan of the uid currently playing on a reader, when not in
a paused-resumable state, returns the existing snapshot (same series,
episode, title, and the existing non-null playback url) with
playback_started false, issues no device command, and leaves the reader
state unchanged. -/
theorem C4_same_scan_noop (env : TeddyPlayer.ScanEnv) (uid : String)
    (s : TeddyPlayer.ReaderState) (cur : TeddyPlayer.TagSnapshot) (u : String)
    (hcur : s.currentTag = some cur) (huid : cur.uid = uid)
    (hres : TeddyPlayer.sameTagResumable s uid = false)
    (hurl : cur.playbackUrl = some u) :
    TeddyPlayer.playTonieForReader env uid s =
      (⟨uid, cur.series, cur.episode, cur.title, cur.picture, true, false,
          some u⟩, s, []) := by
  simp [TeddyPlayer.playTonieForReader, hcur, huid, hres, hurl]

/-- C4 witness: the idempotent re-scan at the concrete playing state. -/
theorem C4_same_scan_noop_witness :
    TeddyPlayer.playTonieForReader TeddyPlayer.exEnvFound "T"
        TeddyPlayer.exPlayingState =
      (⟨"T", TeddyPlayer.exSnapshot.series, TeddyPlayer.exSnapshot.episode,
          TeddyPlayer.exSnapshot.title, TeddyPlayer.exSnapshot.picture, true,
          false, some "http://server/transcode.mp3"⟩,
        TeddyPlayer.exPlayingState, []) :=
  C4_same_scan_noop TeddyPlayer.exEnvFound "T" TeddyPlayer.exPlayingState
    TeddyPlayer.exSnapshot "http://server/transcode.mp3" rfl rfl rfl rfl

/-- C2 counterexample: a tag with no per-track data and a known duration of
7201 seconds synthesizes a pseudo-track of duration 7201, not
min 7201 7200 = 7200: known durations above two hours are not clamped. -/
theorem C2_counterexample :
    TeddyPlayer.pseudoTracksFor [] 7201 = [⟨"Full Audio", 0, 7201⟩] ∧
    ¬ ((7201 : ℚ) = min 7201 7200) := by
  constructor
  · rfl
  · norm_num

/-- C2 amended: a scan that resolves to a tag with an empty track list
synthesizes exactly one pseudo-track named Full Audio starting at 0, whose
duration is the known duration when it is positive and the 7200 second
fallback otherwise (the ceiling applies only to unknown durations; known
durations are used unclamped). -/
theorem C2_pseudo_track (env : TeddyPlayer.ScanEnv) (uid : String)
    (s : TeddyPlayer.ReaderState) (t : TeddyPlayer.TonieData)
    (hcur : s.currentTag = none) (hlk : env.lookup = some t)
    (htr : t.tracks = []) :
    ∃ snap, (TeddyPlayer.playTonieForReader env uid s).2.1.currentTag =
        some snap ∧
      snap.tracks =
        [⟨"Full Audio", 0, if t.duration > 0 then t.duration else 7200⟩] := by
  unfold TeddyPlayer.playTonieForReader
  rw [hcur]
  unfold TeddyPlayer.scanFresh
  rw [hlk]
  exact ⟨_, rfl, by simp [TeddyPlayer.pseudoTracksFor, htr]⟩

/-- C2 witness: the pseudo-track synthesized at a concrete scan of a tag
with no track data and unknown duration. -/
theorem C2_pseudo_track_witness :
    ∃ snap,
      (TeddyPlayer.playTonieForReader
          { TeddyPlayer.exEnvFound with
              lookup := some { TeddyPlayer.exTonie with tracks := [], duration := 0 } }
          "T" TeddyPlayer.initReaderState).2.1.currentTag = some snap ∧
      snap.tracks =
        [⟨"Full Audio", 0,
          if (0 : ℚ) > 0 then (0 : ℚ) else 7200⟩] :=
  C2_pseudo_track
    { TeddyPlayer.exEnvFound with
        lookup := some { TeddyPlayer.exTonie with tracks := [], duration := 0 } }
    "T" TeddyPlayer.initReaderState
    { TeddyPlayer.exTonie with tracks := [], duration := 0 } rfl rfl rfl


namespace TeddyPlayer

/-! ## Decimal rendering helpers (python %d and zero padding) -/

/-- Decimal digit character for a value below 10. -/
def digitChar (n : Nat) : Char :=
  Char.ofNat ('0'.toNat + n)

/-- Fuelled helper for the decimal digit rendering, structurally recursive
so that concrete instances reduce. -/
def decReprGo (fuel : Nat) (n : Nat) : List Char :=
  match fuel with
  | 0 => []
  | fuel + 1 =>
    if n < 10 then [digitChar n]
    else decReprGo fuel (n / 10) ++ [digitChar (n % 10)]

/-- Decimal digits of a natural number, most significant first
(python str(n) for a nonnegative int n). -/
def decRepr (n : Nat) : List Char :=
  decReprGo (n + 1) n

theorem decReprGo_fuel :
    ∀ fuel fuel2 n, n < fuel → n < fuel2 →
      decReprGo fuel n = decReprGo fuel2 n := by
  intro fuel
  induction fuel with
  | zero => omega
  | succ f ih =>
    intro fuel2 n hf hf2
    match fuel2 with
    | 0 => omega
    | g + 1 =>
      show decReprGo (f + 1) n = decReprGo (g + 1) n
      unfold decReprGo
      split
      · rfl
      · rename_i h10
        have hdivf : n / 10 < f := by
          have := Nat.div_lt_self (show 0 < n by omega) (show 1 < 10 by omega)
          omega
        have hdivg : n / 10 < g := by
          have := Nat.div_lt_self (show 0 < n by omega) (show 1 < 10 by omega)
          omega
        rw [ih g (n / 10) hdivf hdivg]

/-- The recurrence the python rendering satisfies. -/
theorem decRepr_eq (n : Nat) :
    decRepr n = if n < 10 then [digitChar n]
      else decRepr (n / 10) ++ [digitChar (n % 10)] := by
  unfold decRepr
  show decReprGo (n + 1) n = _
  conv_lhs => unfold decReprGo
  split
  · rfl
  · rename_i h10
    congr 1
    exact decReprGo_fuel n (n / 10 + 1) (n / 10)
      (by
        have := Nat.div_lt_self (show 0 < n by omega) (show 1 < 10 by omega)
        omega)
      (Nat.lt_succ_self _)

/-- Zero padding to a minimum width (python format spec 0wd). -/
def decPad (w n : Nat) : String :=
  ⟨List.replicate (w - (decRepr n).length) '0' ++ decRepr n⟩

theorem decRepr_length_le :
    ∀ k n, n < 10 ^ (k + 1) → (decRepr n).length ≤ k + 1 := by
  intro k
  induction k with
  | zero =>
    intro n hn
    rw [decRepr_eq]
    split
    · simp
    · omega
  | succ k ih =>
    intro n hn
    rw [decRepr_eq]
    split
    · simp
    · rename_i h10
      have hdiv : n / 10 < 10 ^ (k + 1) := by
        rw [Nat.div_lt_iff_lt_mul (by norm_num)]
        calc n < 10 ^ (k + 1 + 1) := hn
          _ = 10 ^ (k + 1) * 10 := pow_succ 10 (k + 1)
      have := ih (n / 10) hdiv
      simp only [List.length_append, List.length_singleton]
      omega

theorem decRepr_ne_nil (n : Nat) : decRepr n ≠ [] := by
  rw [decRepr_eq]
  split
  · simp
  · simp

theorem decPad_length (w n : Nat) (h : (decRepr n).length ≤ w) :
    (decPad w n).length = w := by
  unfold decPad
  simp [String.length, List.length_replicate]
  omega

/-! ## C9: M3U playlist generation (main.py 3500-3519, get_playlist_m3u)

The endpoint loads metadata.json, then builds the line list starting with
the extended M3U header and, per track, an EXTINF line and the track URL.
The float rendering of the duration is abstracted by the rational's string
representation. -/

/-- Track entry of metadata.json as read by the playlist endpoint. -/
structure MTrack where
  index : Nat
  name : String
  duration : ℚ
deriving DecidableEq

/-- The EXTINF line of a track. -/
def extinfLine (t : MTrack) : String :=
  "#EXTINF:" ++ toString t.duration ++ "," ++ t.name

/-- The URL line of a track: server base, cache key, and the two digit
zero padded one-based track number. -/
def trackUrlLine (serverBase cacheKey : String) (t : MTrack) : String :=
  serverBase ++ "/tracks/" ++ cacheKey ++ "/" ++ decPad 2 (t.index + 1) ++ ".mp3"

/-- The playlist line list as accumulated by the loop of get_playlist_m3u. -/
def m3uLines (serverBase cacheKey : String) (tracks : List MTrack) :
    List String :=
  tracks.foldl (fun acc t => acc ++ [extinfLine t, trackUrlLine serverBase cacheKey t])
    ["#EXTM3U"]

/-- The response body: lines joined with a newline, plus a trailing
newline. -/
def m3uContent (serverBase cacheKey : String) (tracks : List MTrack) : String :=
  String.intercalate "\n" (m3uLines serverBase cacheKey tracks) ++ "\n"

end TeddyPlayer

namespace TeddyPlayer

/-! ## C5: cache eviction (services/transcoding.py 371-425)

cleanup_cache collects the cache entries (fingerprint folders with their
oldest mp3 access time and total size, and loose legacy mp3 files), sorts
them by access time, and deletes from the front while the cache size
exceeds the target.  The in-memory encoding lock table is a module global
the function never consults. -/

/-- One entry collected by cleanup_cache: a fingerprint folder (with the
minimum access time and the summed size of its mp3 files) or a loose mp3
file. -/
structure CacheItem where
  name : String
  atime : ℚ
  size : Nat
  isFolder : Bool
deriving DecidableEq

/-- The eviction loop of cleanup_cache: while the current size exceeds the
target and entries remain, delete the front entry.  Returns the names of
the deleted entries and the bytes freed. -/
def evictLoop (target : Int) : List CacheItem → Int → List String × Int
  | [], _ => ([], 0)
  | item :: rest, current =>
    if current > target then
      let r := evictLoop target rest (current - item.size)
      (item.name :: r.1, item.size + r.2)
    else ([], 0)

/-- Embedding of cleanup_cache: sort the collected entries by access time
(python list.sort, stable ascending) and run the eviction loop on the
current cache size. -/
def cleanupCache (target : Int) (items : List CacheItem) (currentSize : Int) :
    List String × Int :=
  if items.isEmpty then ([], 0)
  else evictLoop target
    (items.mergeSort (fun a b => decide (a.atime ≤ b.atime))) currentSize

/-- Embedding of ensure_cache_space: when the current size plus the needed
bytes exceed the configured maximum, clean up towards max minus needed. -/
def ensureCacheSpace (maxBytes : Int) (neededBytes : Nat)
    (items : List CacheItem) (currentSize : Int) : List String × Int :=
  if currentSize + neededBytes > maxBytes then
    cleanupCache (maxBytes - neededBytes) items currentSize
  else ([], 0)

/-- The module-level encoding lock table at the instant of the
counterexample: the fingerprint fp1 holds an in-flight encoding lock. -/
def exLockedKeys : List String := ["fp1"]

theorem evictLoop_spec (target : Int) :
    ∀ (items : List CacheItem) (current : Int),
      (evictLoop target items current).1 =
        (items.take (evictLoop target items current).1.length).map
          CacheItem.name ∧
      (current - (evictLoop target items current).2 ≤ target ∨
        (evictLoop target items current).1.length = items.length) := by
  intro items
  induction items with
  | nil =>
    intro current
    simp [evictLoop]
  | cons item rest ih =>
    intro current
    unfold evictLoop
    split
    · rename_i hgt
      obtain ⟨h1, h2⟩ := ih (current - item.size)
      refine ⟨?_, ?_⟩
      · simp only [List.length_cons, List.take_succ_cons, List.map_cons]
        rw [← h1]
      · rcases h2 with h2 | h2
        · left
          push_cast
          omega
        · right
          simp [h2]
    · rename_i hle
      exact ⟨by simp, Or.inl (by omega)⟩

end TeddyPlayer

/-- C5 counterexample: a fingerprint directory whose encoding lock is held
is evicted like any other entry.  With the single directory fp1 being
actively encoded (exLockedKeys), over-budget cleanup deletes fp1: the lock
table is never consulted, so in-flight encodings are not pinned. -/
theorem C5_counterexample :
    "fp1" ∈ TeddyPlayer.exLockedKeys ∧
    "fp1" ∈ (TeddyPlayer.cleanupCache 0 [⟨"fp1", 0, 100, true⟩] 100).1 := by
  refine ⟨by decide, ?_⟩
  have hs : List.mergeSort
      [(⟨"fp1", 0, 100, true⟩ : TeddyPlayer.CacheItem)]
      (fun a b => decide (a.atime ≤ b.atime)) =
      [(⟨"fp1", 0, 100, true⟩ : TeddyPlayer.CacheItem)] :=
    List.perm_singleton.mp
      (List.mergeSort_perm [(⟨"fp1", 0, 100, true⟩ : TeddyPlayer.CacheItem)]
        (fun a b => decide (a.atime ≤ b.atime)))
  unfold TeddyPlayer.cleanupCache
  rw [hs]
  decide

/-- C5 amended: eviction is purely least-recently-used with no pinning: the
evicted entries are an initial segment of the entries sorted by oldest
access time (partial directories included, in-flight encodings not
excluded), and the loop stops only once the size is within the target or
every entry has been evicted. -/
theorem C5_lru_eviction (target : Int) (items : List TeddyPlayer.CacheItem)
    (current : Int) (hne : items ≠ []) :
    (TeddyPlayer.cleanupCache target items current).1 =
      ((items.mergeSort (fun a b => decide (a.atime ≤ b.atime))).take
        (TeddyPlayer.cleanupCache target items current).1.length).map
          TeddyPlayer.CacheItem.name ∧
    (current - (TeddyPlayer.cleanupCache target items current).2 ≤ target ∨
      (TeddyPlayer.cleanupCache target items current).1.length =
        items.length) := by
  unfold TeddyPlayer.cleanupCache
  rw [if_neg (by simpa using hne)]
  obtain ⟨h1, h2⟩ := TeddyPlayer.evictLoop_spec target
    (items.mergeSort (fun a b => decide (a.atime ≤ b.atime))) current
  refine ⟨h1, ?_⟩
  rcases h2 with h2 | h2
  · exact Or.inl h2
  · right
    rw [h2, List.length_mergeSort]

/-- C5 witness: the amended eviction property at a concrete two entry
cache. -/
theorem C5_lru_eviction_witness :
    ([⟨"old", 1, 60, true⟩, ⟨"new", 2, 50, true⟩] :
        List TeddyPlayer.CacheItem) ≠ [] ∧
    ((TeddyPlayer.cleanupCache 60 [⟨"old", 1, 60, true⟩, ⟨"new", 2, 50, true⟩]
        110).1 =
      List.map TeddyPlayer.CacheItem.name
        ((([⟨"old", 1, 60, true⟩, ⟨"new", 2, 50, true⟩] :
            List TeddyPlayer.CacheItem).mergeSort
              (fun a b => decide (a.atime ≤ b.atime))).take
          ((TeddyPlayer.cleanupCache 60
            [⟨"old", 1, 60, true⟩, ⟨"new", 2, 50, true⟩] 110).1.length)) ∧
    ((110 : Int) - (TeddyPlayer.cleanupCache 60
        [⟨"old", 1, 60, true⟩, ⟨"new", 2, 50, true⟩] 110).2 ≤ 60 ∨
      (TeddyPlayer.cleanupCache 60
        [⟨"old", 1, 60, true⟩, ⟨"new", 2, 50, true⟩] 110).1.length = 2)) :=
  ⟨by decide,
   C5_lru_eviction 60 [⟨"old", 1, 60, true⟩, ⟨"new", 2, 50, true⟩] 110
     (by decide)⟩

namespace TeddyPlayer

/-! ## C7: SD upload retry loop (services/devices.py 2128-2338,
upload_to_espuino)

The retry loop runs attempt indices 0 .. max_retries - 1.  Before every
attempt except the first it sleeps 5 * 2 ^ (attempt - 1) seconds.  A
successful POST returns; a failed POST falls through to the next attempt;
when the loop ends the upload status is set to error.  The per-attempt
outcome (HTTP 200 or not) is supplied as an oracle; the cancel and stall
paths, which abort without retrying, are not taken here. -/

/-- The retry loop from a given attempt index, with the number of remaining
loop iterations as the structural argument: returns whether the upload
succeeded, how many attempts were made, and the list of backoff delays
slept. -/
def uploadGo (attemptOk : Nat → Bool) (attempt : Nat) :
    Nat → Bool × Nat × List Nat
  | 0 => (false, 0, [])
  | remaining + 1 =>
    let delays := if attempt > 0 then [5 * 2 ^ (attempt - 1)] else []
    if attemptOk attempt then (true, 1, delays)
    else
      let r := uploadGo attemptOk (attempt + 1) remaining
      (r.1, r.2.1 + 1, delays ++ r.2.2)

/-- Embedding of the retry behaviour of upload_to_espuino: the loop runs
attempts 0 .. max_retries - 1 (python range), so max_retries iterations
starting at attempt 0; the source default is max_retries = 3. -/
def uploadToEspuino (maxRetries : Nat) (attemptOk : Nat → Bool) :
    Bool × Nat × List Nat :=
  uploadGo attemptOk 0 maxRetries

end TeddyPlayer

/-- C7: evaluation of the upload retry loop at the failing input (every POST
attempt fails, default max_retries = 3).  The code makes 3 attempts in
total, which is the first try plus only 2 retries, sleeping 5 s and then
10 s; the 20 s backoff step of the comment (5s, 10s, 20s) is unreachable,
and only then is the upload reported as an error.  This contradicts the
function's own docstring (3 retry attempts on failure) and the claim. -/
theorem C7_retry_schedule :
    TeddyPlayer.uploadToEspuino 3 (fun _ => false) = (false, 3, [5, 10]) ∧
    20 ∉ (TeddyPlayer.uploadToEspuino 3 (fun _ => false)).2.2 := by
  constructor <;> decide

namespace TeddyPlayer

/-! ## C1: multi-track encoding and metadata (services/transcoding.py
580-799, encode_tonie_tracks)

The loop enumerates the input track list; a track whose duration is not
positive is skipped with continue, otherwise the track is encoded to the
file named from the enumerate index (index + 1, two digits) and a
TrackInfo carrying that same enumerate index is appended.  metadata.json is
written from the collected TrackInfo list only when the loop completes
without an encode failure.  The transcoder is abstracted as a success
oracle per enumerate index; the set of written track files is collected
alongside. -/

/-- Metadata entry for one encoded track (dataclass TrackInfo). -/
structure TrackInfo where
  index : Nat
  name : String
  startSeconds : ℚ
  durationSeconds : ℚ
  filename : String
deriving DecidableEq

/-- Track filename from the enumerate index (02d of index + 1). -/
def trackFilename (i : Nat) : String :=
  decPad 2 (i + 1) ++ ".mp3"

/-- The encoding loop over the enumerated track list.  Returns the
TrackInfo list and the written files on success, none when a track fails
to encode. -/
def encodeLoop (encodeOk : Nat → Bool) :
    List (Nat × TrackIn) → Option (List TrackInfo × List String)
  | [] => some ([], [])
  | (i, t) :: rest =>
    if t.duration ≤ 0 then encodeLoop encodeOk rest
    else if encodeOk i then
      match encodeLoop encodeOk rest with
      | some (infos, files) =>
        some (⟨i, t.name, t.start, t.duration, trackFilename i⟩ :: infos,
          trackFilename i :: files)
      | none => none
    else none

/-- Embedding of encode_tonie_tracks: fails on an empty input, otherwise
runs the loop over the enumerated tracks; metadata.json contains exactly
the returned TrackInfo list. -/
def encodeTonieTracks (encodeOk : Nat → Bool) (tracks : List TrackIn) :
    Option (List TrackInfo × List String) :=
  if tracks.isEmpty then none
  else encodeLoop encodeOk tracks.enum

/-- A track list with a zero-duration middle track. -/
def exTracksWithZero : List TrackIn :=
  [⟨"a", 0, 10⟩, ⟨"b", 10, 0⟩, ⟨"c", 10, 10⟩]

theorem encodeLoop_enumFrom_spec (encodeOk : Nat → Bool) :
    ∀ (ts : List TrackIn) (n : Nat) (infos : List TrackInfo)
      (files : List String),
      encodeLoop encodeOk (List.enumFrom n ts) = some (infos, files) →
      (∀ t ∈ infos, t.filename ∈ files) ∧
      (infos.map TrackInfo.index).Sublist (List.range' n ts.length) ∧
      ((∀ t ∈ ts, 0 < t.duration) →
        infos.map TrackInfo.index = List.range' n ts.length) := by
  intro ts
  induction ts with
  | nil =>
    intro n infos files h
    simp only [List.enumFrom, encodeLoop, Option.some.injEq, Prod.mk.injEq] at h
    obtain ⟨h1, h2⟩ := h
    subst h1; subst h2
    simp
  | cons t ts ih =>
    intro n infos files h
    simp only [List.enumFrom] at h
    unfold encodeLoop at h
    by_cases hdur : t.duration ≤ 0
    · rw [if_pos hdur] at h
      obtain ⟨hf, hsub, hall⟩ := ih (n + 1) infos files h
      refine ⟨hf, ?_, ?_⟩
      · show (infos.map TrackInfo.index).Sublist (List.range' n (ts.length + 1))
        have : List.range' n (ts.length + 1) = n :: List.range' (n + 1) ts.length :=
          rfl
        rw [this]
        exact hsub.cons n
      · intro hpos
        exact absurd (hpos t (List.mem_cons_self t ts)) (by exact not_lt.mpr hdur)
    · rw [if_neg hdur] at h
      by_cases hok : encodeOk n = true
      · rw [if_pos hok] at h
        cases hrec : encodeLoop encodeOk (List.enumFrom (n + 1) ts) with
        | none => rw [hrec] at h; exact absurd h (by simp)
        | some p =>
          obtain ⟨infos0, files0⟩ := p
          rw [hrec] at h
          simp only [Option.some.injEq, Prod.mk.injEq] at h
          obtain ⟨h1, h2⟩ := h
          subst h1; subst h2
          obtain ⟨hf, hsub, hall⟩ := ih (n + 1) infos0 files0 hrec
          refine ⟨?_, ?_, ?_⟩
          · intro x hx
            rcases List.mem_cons.mp hx with hx | hx
            · subst hx
              exact List.mem_cons_self _ _
            · exact List.mem_cons_of_mem _ (hf x hx)
          · show ((⟨n, t.name, t.start, t.duration,
                trackFilename n⟩ : TrackInfo) :: infos0).map TrackInfo.index
                |>.Sublist (List.range' n (ts.length + 1))
            have hr : List.range' n (ts.length + 1) =
                n :: List.range' (n + 1) ts.length := rfl
            rw [hr, List.map_cons]
            exact hsub.cons₂ n
          · intro hpos
            simp only [List.length_cons, List.map_cons]
            rw [show List.range' n (ts.length + 1) =
              n :: List.range' (n + 1) ts.length from rfl]
            rw [hall (fun x hx => hpos x (List.mem_cons_of_mem t hx))]
      · rw [if_neg hok] at h
        exact absurd h (by simp)

end TeddyPlayer

/-- C1 counterexample: with a zero-duration middle track (which the encoder
skips) and every encode succeeding, the written metadata's track indices
are 0 and 2: the entry at list position 1 has index 2, so indices are
neither the zero-based positions in the metadata track list nor contiguous
from 0.  The claim fails as stated. -/
theorem C1_counterexample :
    (TeddyPlayer.encodeTonieTracks (fun _ => true)
        TeddyPlayer.exTracksWithZero).map
      (fun r => r.1.map TeddyPlayer.TrackInfo.index) = some [0, 2] ∧
    ¬ ([0, 2] = List.range 2) := by
  constructor <;> decide

/-- C1 amended: when encode_tonie_tracks writes metadata, every metadata
track entry refers to a written track file, and the indices are a
subsequence of the enumerate indices of the input list (hence strictly
increasing, each entry's index being its zero-based position in the INPUT
track list).  They equal the contiguous range 0 .. n-1 claimed by the spec
when every input track has positive duration; a skipped non-positive
duration track leaves a gap instead. -/
theorem C1_metadata_tracks (encodeOk : Nat → Bool)
    (tracks : List TeddyPlayer.TrackIn) (infos : List TeddyPlayer.TrackInfo)
    (files : List String)
    (h : TeddyPlayer.encodeTonieTracks encodeOk tracks = some (infos, files)) :
    (∀ t ∈ infos, t.filename ∈ files) ∧
    (infos.map TeddyPlayer.TrackInfo.index).Sublist
      (List.range tracks.length) ∧
    ((∀ t ∈ tracks, 0 < t.duration) →
      infos.map TeddyPlayer.TrackInfo.index = List.range tracks.length) := by
  unfold TeddyPlayer.encodeTonieTracks at h
  by_cases hni : tracks.isEmpty
  · rw [if_pos hni] at h
    exact absurd h (by simp)
  · rw [if_neg hni] at h
    have henum : tracks.enum = List.enumFrom 0 tracks := rfl
    rw [henum] at h
    obtain ⟨hf, hsub, hall⟩ :=
      TeddyPlayer.encodeLoop_enumFrom_spec encodeOk tracks 0 infos files h
    rw [List.range_eq_range']
    exact ⟨hf, hsub, hall⟩

/-- C1 witness: the amended statement at a concrete two track input with
positive durations and a succeeding encoder. -/
theorem C1_metadata_tracks_witness :
    (∀ t ∈ [(⟨0, "a", 0, 10, TeddyPlayer.trackFilename 0⟩ :
          TeddyPlayer.TrackInfo),
        ⟨1, "c", 10, 10, TeddyPlayer.trackFilename 1⟩],
      t.filename ∈ [TeddyPlayer.trackFilename 0, TeddyPlayer.trackFilename 1]) ∧
    (([(⟨0, "a", 0, 10, TeddyPlayer.trackFilename 0⟩ :
          TeddyPlayer.TrackInfo),
        ⟨1, "c", 10, 10, TeddyPlayer.trackFilename 1⟩].map
        TeddyPlayer.TrackInfo.index).Sublist
      (List.range ([(⟨"a", 0, 10⟩ : TeddyPlayer.TrackIn),
        ⟨"c", 10, 10⟩].length))) ∧
    ((∀ t ∈ [(⟨"a", 0, 10⟩ : TeddyPlayer.TrackIn), ⟨"c", 10, 10⟩],
        0 < t.duration) →
      [(⟨0, "a", 0, 10, TeddyPlayer.trackFilename 0⟩ :
          TeddyPlayer.TrackInfo),
        ⟨1, "c", 10, 10, TeddyPlayer.trackFilename 1⟩].map
        TeddyPlayer.TrackInfo.index =
      List.range ([(⟨"a", 0, 10⟩ : TeddyPlayer.TrackIn),
        ⟨"c", 10, 10⟩].length)) :=
  C1_metadata_tracks (fun _ => true)
    [⟨"a", 0, 10⟩, ⟨"c", 10, 10⟩]
    [⟨0, "a", 0, 10, TeddyPlayer.trackFilename 0⟩,
      ⟨1, "c", 10, 10, TeddyPlayer.trackFilename 1⟩]
    [TeddyPlayer.trackFilename 0, TeddyPlayer.trackFilename 1]
    (by rfl)

namespace TeddyPlayer

/-! ## C8: UID to ESPuino tag id (main.py 134-156, uid_to_espuino_tag_id)

The source uppercases the UID; when it contains colons it splits on them,
keeps the nonempty parts, takes the last four in reversed order, and joins
the decimal value of each part formatted to at least three digits
(python 03d); a part that is not valid hexadecimal raises ValueError and
yields the empty id.  Without colons it strips non-hex characters, takes
aligned pairs of the last eight, and proceeds the same way. -/

/-- Whether a character survives re.sub removing non 0-9A-F. -/
def isHexUpper (c : Char) : Bool :=
  ('0'.toNat ≤ c.toNat && c.toNat ≤ '9'.toNat) ||
    ('A'.toNat ≤ c.toNat && c.toNat ≤ 'F'.toNat)

/-- Hexadecimal value of a digit character (int(p, 16) digit handling). -/
def hexVal (c : Char) : Option Nat :=
  if '0'.toNat ≤ c.toNat ∧ c.toNat ≤ '9'.toNat then
    some (c.toNat - '0'.toNat)
  else if 'A'.toNat ≤ c.toNat ∧ c.toNat ≤ 'F'.toNat then
    some (c.toNat - 'A'.toNat + 10)
  else if 'a'.toNat ≤ c.toNat ∧ c.toNat ≤ 'f'.toNat then
    some (c.toNat - 'a'.toNat + 10)
  else none

/-- Accumulating hexadecimal parse. -/
def parseHexGo (acc : Nat) : List Char → Option Nat
  | [] => some acc
  | c :: rest =>
    match hexVal c with
    | some v => parseHexGo (16 * acc + v) rest
    | none => none

/-- Embedding of int(p, 16) on a digit string: fails on the empty string or
on a non-hex character. -/
def parseHex (s : List Char) : Option Nat :=
  if s.isEmpty then none else parseHexGo 0 s

/-- Parse every part; none as soon as one part fails (the ValueError of the
python comprehension). -/
def parseAll : List (List Char) → Option (List Nat)
  | [] => some []
  | p :: ps =>
    match parseHex p, parseAll ps with
    | some v, some vs => some (v :: vs)
    | _, _ => none

/-- Three digit zero padded decimal rendering (python 03d). -/
def pad3 (v : Nat) : List Char :=
  List.replicate (3 - (decRepr v).length) '0' ++ decRepr v

/-- The join of the decimal triplets, empty when any part fails to parse. -/
def renderTagId (parts : List (List Char)) : List Char :=
  match parseAll parts with
  | some vals => vals.flatMap pad3
  | none => []

/-- Embedding of python str.split for a one character separator. -/
def pySplit (sep : Char) : List Char → List (List Char)
  | [] => [[]]
  | c :: rest =>
    if c = sep then [] :: pySplit sep rest
    else
      match pySplit sep rest with
      | [] => [[c]]
      | p :: ps => (c :: p) :: ps

/-- Aligned pairs of characters (the slices hex_only at i, i+2 stepping by
two through the last eight characters). -/
def pairs2 : List Char → List (List Char)
  | a :: b :: rest => [a, b] :: pairs2 rest
  | _ => []

/-- Embedding of uid_to_espuino_tag_id. -/
def uid_to_espuino_tag_id (uid : List Char) : List Char :=
  if uid.isEmpty then []
  else
    let raw := uid.map Char.toUpper
    if raw.contains ':' then
      let parts := (pySplit ':' raw).filter (fun p => !p.isEmpty)
      if 4 ≤ parts.length then
        renderTagId ((parts.drop (parts.length - 4)).reverse)
      else []
    else
      let hexOnly := raw.filter isHexUpper
      if hexOnly.length < 8 then []
      else renderTagId ((pairs2 (lastN 8 hexOnly)).reverse)

/-! Rendering of a well-formed colon separated byte UID, used to quantify
over every UID string of at least four bytes. -/

/-- Uppercase hexadecimal digit character of a value below 16. -/
def hexDigitChar (n : Nat) : Char :=
  if n < 10 then digitChar n else Char.ofNat ('A'.toNat + (n - 10))

/-- The two digit uppercase hexadecimal rendering of one byte. -/
def toHexPair (b : Nat) : List Char :=
  [hexDigitChar (b / 16), hexDigitChar (b % 16)]

/-- Python colon.join of the parts. -/
def joinColon : List (List Char) → List Char
  | [] => []
  | [p] => p
  | p :: ps => p ++ ':' :: joinColon ps

/-- The canonical colon separated uppercase rendering of a byte list, e.g.
E0:04:03:50. -/
def renderColonUid (bs : List Nat) : List Char :=
  joinColon (bs.map toHexPair)

end TeddyPlayer

namespace TeddyPlayer

theorem toUpper_hexDigitChar (n : Nat) (h : n < 16) :
    (hexDigitChar n).toUpper = hexDigitChar n := by
  interval_cases n <;> decide

theorem hexDigitChar_ne_colon (n : Nat) (h : n < 16) :
    hexDigitChar n ≠ ':' := by
  interval_cases n <;> decide

theorem hexVal_hexDigitChar (n : Nat) (h : n < 16) :
    hexVal (hexDigitChar n) = some n := by
  interval_cases n <;> decide

theorem map_id_of_mem (f : Char → Char) :
    ∀ l : List Char, (∀ c ∈ l, f c = c) → l.map f = l := by
  intro l
  induction l with
  | nil => intro _; rfl
  | cons c cs ih =>
    intro h
    rw [List.map_cons, h c (List.mem_cons_self c cs),
      ih (fun x hx => h x (List.mem_cons_of_mem c hx))]

theorem mem_joinColon :
    ∀ (parts : List (List Char)) (c : Char), c ∈ joinColon parts →
      (∃ p ∈ parts, c ∈ p) ∨ c = ':' := by
  intro parts
  induction parts with
  | nil => intro c hc; simp [joinColon] at hc
  | cons p ps ih =>
    intro c hc
    cases ps with
    | nil =>
      simp only [joinColon] at hc
      exact Or.inl ⟨p, List.mem_cons_self p [], hc⟩
    | cons q qs =>
      simp only [joinColon] at hc
      rcases List.mem_append.mp hc with hc | hc
      · exact Or.inl ⟨p, List.mem_cons_self p _, hc⟩
      · rcases List.mem_cons.mp hc with hc | hc
        · exact Or.inr hc
        · rcases ih c hc with ⟨r, hr, hcr⟩ | hc
          · exact Or.inl ⟨r, List.mem_cons_of_mem p hr, hcr⟩
          · exact Or.inr hc

theorem colon_mem_joinColon (p q : List Char) (ps : List (List Char)) :
    ':' ∈ joinColon (p :: q :: ps) := by
  simp only [joinColon]
  exact List.mem_append.mpr (Or.inr (List.mem_cons_self ':' _))

theorem joinColon_cons_cons (p q : List Char) (ps : List (List Char)) :
    joinColon (p :: q :: ps) = p ++ ':' :: joinColon (q :: ps) := rfl

theorem pySplit_of_not_mem (sep : Char) :
    ∀ xs : List Char, sep ∉ xs → pySplit sep xs = [xs] := by
  intro xs
  induction xs with
  | nil => intro _; rfl
  | cons c cs ih =>
    intro h
    have hc : ¬ c = sep := fun hcs =>
      h (hcs ▸ List.mem_cons_self c cs)
    have hcs : sep ∉ cs := fun hm => h (List.mem_cons_of_mem c hm)
    simp only [pySplit, if_neg hc, ih hcs]

theorem pySplit_append (sep : Char) :
    ∀ (xs rest : List Char), sep ∉ xs →
      pySplit sep (xs ++ sep :: rest) = xs :: pySplit sep rest := by
  intro xs
  induction xs with
  | nil =>
    intro rest _
    simp [pySplit]
  | cons c cs ih =>
    intro rest h
    have hc : ¬ c = sep := fun hcs =>
      h (hcs ▸ List.mem_cons_self c cs)
    have hcs : sep ∉ cs := fun hm => h (List.mem_cons_of_mem c hm)
    simp only [List.cons_append, pySplit, if_neg hc, List.append_eq]
    rw [ih rest hcs]

theorem pySplit_joinColon :
    ∀ parts : List (List Char), parts ≠ [] →
      (∀ p ∈ parts, ':' ∉ p) →
      pySplit ':' (joinColon parts) = parts := by
  intro parts
  induction parts with
  | nil => intro h _; exact absurd rfl h
  | cons p ps ih =>
    intro _ hm
    cases ps with
    | nil =>
      show pySplit ':' (joinColon [p]) = [p]
      simp only [joinColon]
      exact pySplit_of_not_mem ':' p (hm p (List.mem_cons_self p []))
    | cons q qs =>
      rw [joinColon_cons_cons,
        pySplit_append ':' p (joinColon (q :: qs))
          (hm p (List.mem_cons_self p _)),
        ih (by simp) (fun x hx => hm x (List.mem_cons_of_mem p hx))]

theorem parseHex_toHexPair (b : Nat) (h : b < 256) :
    parseHex (toHexPair b) = some b := by
  have h1 : hexVal (hexDigitChar (b / 16)) = some (b / 16) :=
    hexVal_hexDigitChar _ (by omega)
  have h2 : hexVal (hexDigitChar (b % 16)) = some (b % 16) :=
    hexVal_hexDigitChar _ (Nat.mod_lt _ (by omega))
  simp only [parseHex, toHexPair, List.isEmpty_cons, Bool.false_eq_true,
    if_false, parseHexGo, h1, h2]
  congr 1
  omega

theorem parseAll_map_toHexPair :
    ∀ bs : List Nat, (∀ b ∈ bs, b < 256) →
      parseAll (bs.map toHexPair) = some bs := by
  intro bs
  induction bs with
  | nil => intro _; rfl
  | cons b rest ih =>
    intro h
    simp only [List.map_cons, parseAll,
      parseHex_toHexPair b (h b (List.mem_cons_self b rest)),
      ih (fun x hx => h x (List.mem_cons_of_mem b hx))]

theorem renderTagId_map_toHexPair (bs : List Nat)
    (h : ∀ b ∈ bs, b < 256) :
    renderTagId (bs.map toHexPair) = bs.flatMap pad3 := by
  simp only [renderTagId, parseAll_map_toHexPair bs h]

theorem pad3_length (b : Nat) (h : b < 1000) : (pad3 b).length = 3 := by
  have hle : (decRepr b).length ≤ 3 := decRepr_length_le 2 b (by omega)
  simp only [pad3, List.length_append, List.length_replicate]
  omega

end TeddyPlayer

/-- C8: for every UID of at least four bytes (rendered in the standard colon
separated hexadecimal form), the derived ESPuino tag id is the
concatenation of the decimal renderings of the last four bytes in reversed
byte order, each zero padded to exactly three digits. -/
theorem C8_espuino_tag_id (bs : List Nat) (hlen : 4 ≤ bs.length)
    (hb : ∀ b ∈ bs, b < 256) :
    TeddyPlayer.uid_to_espuino_tag_id (TeddyPlayer.renderColonUid bs) =
      ((bs.drop (bs.length - 4)).reverse).flatMap TeddyPlayer.pad3 ∧
    ∀ b ∈ bs, (TeddyPlayer.pad3 b).length = 3 := by
  refine ⟨?_, fun b hbb => TeddyPlayer.pad3_length b
    (by have := hb b hbb; omega)⟩
  cases bs with
  | nil => simp at hlen
  | cons b1 bs1 =>
  cases bs1 with
  | nil => simp at hlen
  | cons b2 bs2 =>
  set bs := b1 :: b2 :: bs2 with hbs
  have hmemchar : ∀ c ∈ TeddyPlayer.renderColonUid bs, Char.toUpper c = c := by
    intro c hc
    rcases TeddyPlayer.mem_joinColon (bs.map TeddyPlayer.toHexPair) c hc with
      ⟨p, hp, hcp⟩ | hcolon
    · obtain ⟨b, hbb, rfl⟩ := List.mem_map.mp hp
      have hblt := hb b hbb
      simp only [TeddyPlayer.toHexPair, List.mem_cons,
        List.not_mem_nil, or_false] at hcp
      rcases hcp with rfl | rfl
      · exact TeddyPlayer.toUpper_hexDigitChar _ (by omega)
      · exact TeddyPlayer.toUpper_hexDigitChar _ (by omega)
    · subst hcolon; decide
  have hfix : (TeddyPlayer.renderColonUid bs).map Char.toUpper =
      TeddyPlayer.renderColonUid bs :=
    TeddyPlayer.map_id_of_mem _ _ hmemchar
  have hne : (TeddyPlayer.renderColonUid bs).isEmpty = false := by
    show (TeddyPlayer.joinColon (TeddyPlayer.toHexPair b1 ::
      TeddyPlayer.toHexPair b2 :: (bs2.map TeddyPlayer.toHexPair))).isEmpty
      = false
    rw [TeddyPlayer.joinColon_cons_cons]
    rfl
  have hcolonmem : ':' ∈ TeddyPlayer.renderColonUid bs :=
    TeddyPlayer.colon_mem_joinColon (TeddyPlayer.toHexPair b1)
      (TeddyPlayer.toHexPair b2) (bs2.map TeddyPlayer.toHexPair)
  have hcont : (TeddyPlayer.renderColonUid bs).contains ':' = true :=
    List.elem_iff.mpr hcolonmem
  have hsplit : TeddyPlayer.pySplit ':' (TeddyPlayer.renderColonUid bs) =
      bs.map TeddyPlayer.toHexPair := by
    apply TeddyPlayer.pySplit_joinColon
    · simp [hbs]
    · intro p hp
      obtain ⟨b, hbb, rfl⟩ := List.mem_map.mp hp
      have hblt := hb b hbb
      simp only [TeddyPlayer.toHexPair, List.mem_cons,
        List.not_mem_nil, or_false]
      push_neg
      exact ⟨(TeddyPlayer.hexDigitChar_ne_colon _ (by omega)).symm,
        (TeddyPlayer.hexDigitChar_ne_colon _ (by omega)).symm⟩
  have hfilter : ((bs.map TeddyPlayer.toHexPair).filter
      (fun p => !p.isEmpty)) = bs.map TeddyPlayer.toHexPair := by
    apply List.filter_eq_self.mpr
    intro p hp
    obtain ⟨b, hbb, rfl⟩ := List.mem_map.mp hp
    rfl
  have hlast : ∀ b ∈ (bs.drop (bs.length - 4)).reverse, b < 256 := by
    intro b hbb
    exact hb b (List.mem_of_mem_drop (List.mem_reverse.mp hbb))
  unfold TeddyPlayer.uid_to_espuino_tag_id
  rw [if_neg (by rw [hne]; exact Bool.false_ne_true)]
  simp only [hfix]
  rw [if_pos hcont, hsplit, hfilter, List.length_map]
  rw [if_pos hlen]
  rw [← List.map_drop, ← List.map_reverse]
  exact TeddyPlayer.renderTagId_map_toHexPair _ hlast

/-- C8 witness: the concrete UID E0:04:03:50:13:16:80:4B maps to the
decimal triplets of 4B, 80, 16, 13 in that order. -/
theorem C8_espuino_tag_id_witness :
    TeddyPlayer.uid_to_espuino_tag_id
        (TeddyPlayer.renderColonUid [224, 4, 3, 80, 19, 22, 128, 75]) =
      (([224, 4, 3, 80, 19, 22, 128, 75].drop
        ([224, 4, 3, 80, 19, 22, 128, 75].length - 4)).reverse).flatMap
        TeddyPlayer.pad3 ∧
    ∀ b ∈ [224, 4, 3, 80, 19, 22, 128, 75], (TeddyPlayer.pad3 b).length = 3 :=
  C8_espuino_tag_id [224, 4, 3, 80, 19, 22, 128, 75] (by decide) (by decide)
